import Mathlib

/-!
Verification of the referral-commission core of the tekwealth-lms backend.

The definitions below are a shallow embedding of the Python source:
  * `backend/models/enums.py`            → `ReferralCommissionStatus`
  * `backend/models/user_model.py`       → `User`
  * `backend/models/referral_model.py`   → `ReferralEarning`
  * `backend/crud/user_crud.py`          → `get_user_by_id`, `create_user`
  * `backend/routes/auth_routes.py`      → `register_user_after_firebase`
  * `backend/routes/subscription_routes.py` (webhook commission loop)
                                         → `commissionLoop`
  * `backend/crud/referral_crud.py`      → `create_referral_earning`,
    `update_referral_earning_status`, `get_downline_users_flat`,
    `get_referral_stats_for_user`

Decimal currency amounts and rates are modelled as exact rationals (`ℚ`),
matching Python's `decimal.Decimal` exact arithmetic.  Database tables are
modelled as lists of records; SQL `WHERE`/`IN`/`SUM` become `List.filter`,
list membership and `List.sum`.
-/

namespace Tekwealth

/-- `ReferralCommissionStatus` from `backend/models/enums.py`. -/
inductive ReferralCommissionStatus where
  | PENDING
  | APPROVED
  | PAID
  | REJECTED
deriving DecidableEq, Repr

/-- The subset of the `users` table (`backend/models/user_model.py`) relevant
to lineage, downline traversal and commission generation. -/
structure User where
  id : Nat
  firebase_uid : String
  email : String
  referral_code : Option String
  referred_by_id : Option Nat
  upline_l1_id : Option Nat
  upline_l2_id : Option Nat
  upline_l3_id : Option Nat
deriving DecidableEq, Repr

/-- A row of the `referral_earnings` table
(`backend/models/referral_model.py`).  `created_at` is modelled as an
insertion counter; the DB-managed `updated_at` column is not modelled. -/
structure ReferralEarning where
  id : Nat
  user_id : Nat
  referred_user_id : Option Nat
  source_payment_id : Option Nat
  commission_amount : ℚ
  commission_rate : ℚ
  referral_level : Nat
  status : ReferralCommissionStatus
  notes : Option String
  created_at : Nat
deriving DecidableEq, Repr

/-- The fields of a `Payment` row used by the webhook commission loop. -/
structure Payment where
  id : Nat
  user_id : Nat
  amount : ℚ
deriving DecidableEq, Repr

/-- The three per-level commission rates
(`COMMISSION_RATE_L1/2/3` in `backend/routes/subscription_routes.py`). -/
structure CommissionRates where
  l1 : ℚ
  l2 : ℚ
  l3 : ℚ
deriving DecidableEq, Repr

/-- Default rates: L1 = 0.10, L2 = 0.05, L3 = 0.02. -/
def defaultRates : CommissionRates :=
  { l1 := 1/10, l2 := 1/20, l3 := 1/50 }

/-- `user_crud.get_user_by_id`: first user whose `id` matches. -/
def get_user_by_id (db : List User) (uid : Nat) : Option User :=
  db.find? (fun u => u.id == uid)

/-- `user_crud.get_user_by_referral_code`: first user whose own
`referral_code` matches. -/
def get_user_by_referral_code (db : List User) (code : String) : Option User :=
  db.find? (fun u => u.referral_code == some code)

/-- `user_crud.get_user_by_firebase_uid`. -/
def get_user_by_firebase_uid (db : List User) (fuid : String) : Option User :=
  db.find? (fun u => u.firebase_uid == fuid)

/-- `user_crud.get_user_by_email`. -/
def get_user_by_email (db : List User) (email : String) : Option User :=
  db.find? (fun u => u.email == email)

/-- `referral_crud.create_referral_earning`: inserts one row, with the
auto-increment `id` and `created_at` modelled by the current table length.
There is no uniqueness check before the insert. -/
def create_referral_earning (ledger : List ReferralEarning)
    (e : ReferralEarning) : List ReferralEarning :=
  ledger ++ [{ e with id := ledger.length, created_at := ledger.length }]

/-- The `upline_users_and_rates` list built by the webhook handler in
`subscription_routes.py` (lines 391–395). -/
def uplineUsersAndRates (payer : User) (rates : CommissionRates) :
    List (Option Nat × ℚ × Nat) :=
  [(payer.upline_l1_id, rates.l1, 1),
   (payer.upline_l2_id, rates.l2, 2),
   (payer.upline_l3_id, rates.l3, 3)]

/-- One iteration of the commission loop: skip a null upline id, otherwise
build the `ReferralEarningCreate` payload (`subscription_routes.py`
lines 398–409) and insert it via `create_referral_earning`. -/
def commissionStep (payer : User) (payment : Payment)
    (led : List ReferralEarning) (t : Option Nat × ℚ × Nat) :
    List ReferralEarning :=
  match t with
  | (none, _, _) => led
  | (some uplineUserId, rate, level) =>
      create_referral_earning led
        { id := 0
          user_id := uplineUserId
          referred_user_id := some payer.id
          source_payment_id := some payment.id
          commission_amount := payment.amount * rate
          commission_rate := rate
          referral_level := level
          status := ReferralCommissionStatus.PENDING
          notes := none
          created_at := 0 }

/-- The commission loop of `stripe_webhook` (`subscription_routes.py`
lines 397–410): for each non-null upline id create a PENDING
`ReferralEarning` with `commission_amount = db_payment.amount * rate`;
null levels are skipped.  No duplicate check is performed. -/
def commissionLoop (payer : User) (payment : Payment)
    (rates : CommissionRates) (ledger : List ReferralEarning) :
    List ReferralEarning :=
  (uplineUsersAndRates payer rates).foldl (commissionStep payer payment) ledger

/-- The PENDING commission row the loop inserts for upline `uplineUserId`
at `level`, once the auto-increment columns have been assigned value `n`. -/
def pendingRow (payer : User) (payment : Payment) (rate : ℚ)
    (level uplineUserId n : Nat) : ReferralEarning :=
  { id := n
    user_id := uplineUserId
    referred_user_id := some payer.id
    source_payment_id := some payment.id
    commission_amount := payment.amount * rate
    commission_rate := rate
    referral_level := level
    status := ReferralCommissionStatus.PENDING
    notes := none
    created_at := n }

/-- The rows the commission loop appends for a list of
(upline id, rate, level) entries, ids assigned consecutively from `n`. -/
def rowsFrom (payer : User) (payment : Payment)
    (entries : List (Option Nat × ℚ × Nat)) (n : Nat) :
    List ReferralEarning :=
  match entries with
  | [] => []
  | (none, _, _) :: rest => rowsFrom payer payment rest n
  | (some uid, rate, level) :: rest =>
      pendingRow payer payment rate level uid n
        :: rowsFrom payer payment rest (n + 1)

/-- Number of rows in a ledger carrying a given
(earning user, source payment, level) key. -/
def keyCount (ledger : List ReferralEarning)
    (uid : Nat) (pid : Option Nat) (level : Nat) : Nat :=
  (ledger.filter (fun e =>
    e.user_id == uid && e.source_payment_id == pid
      && e.referral_level == level)).length

/-- How many of the payer's three upline pointers are non-null. -/
def nonNullUplineCount (payer : User) : Nat :=
  (if payer.upline_l1_id.isSome then 1 else 0)
    + (if payer.upline_l2_id.isSome then 1 else 0)
    + (if payer.upline_l3_id.isSome then 1 else 0)

/-- Input data for `create_user` (`UserCreateInternal` in
`backend/schemas/user_schema.py`, the fields the lineage logic reads). -/
structure UserCreateInternal where
  firebase_uid : String
  email : String
  referral_code : Option String
  referred_by_id : Option Nat
deriving DecidableEq, Repr

/-- The upline-population block of `user_crud.create_user` (lines 76–98):
starting from all-null pointers, if `referred_by_id` resolves to a user
`referrer_l1`, set L1 to its id; if `referrer_l1.upline_l1_id` is non-null
set L2 to it, and set L3 to `referrer_l1.upline_l2_id` only when the
`referrer_l1.upline_l1` relationship loads a user whose own
`upline_l1_id` is non-null (the guard written in the source). -/
def computeUplines (db : List User) (referred_by_id : Option Nat) :
    Option Nat × Option Nat × Option Nat :=
  match referred_by_id with
  | none => (none, none, none)
  | some rid =>
    match get_user_by_id db rid with
    | none => (none, none, none)
    | some referrer_l1 =>
      match referrer_l1.upline_l1_id with
      | none => (some referrer_l1.id, none, none)
      | some l1_of_l1 =>
        let l3 : Option Nat :=
          match get_user_by_id db l1_of_l1 with
          | none => none
          | some u1 =>
            match u1.upline_l1_id with
            | none => none
            | some _ => referrer_l1.upline_l2_id
        (some referrer_l1.id, some l1_of_l1, l3)

/-- `user_crud.create_user`: duplicate firebase-uid/email checks, then the
new `User` row with uplines from `computeUplines`, appended to the table.
Returns `none` on the duplicate checks (the route maps that to a 500). -/
def create_user (db : List User) (d : UserCreateInternal) (newId : Nat) :
    Option (List User × User) :=
  if (get_user_by_firebase_uid db d.firebase_uid).isSome then none
  else if (get_user_by_email db d.email).isSome then none
  else
    let up := computeUplines db d.referred_by_id
    let u : User :=
      { id := newId
        firebase_uid := d.firebase_uid
        email := d.email
        referral_code := d.referral_code
        referred_by_id := d.referred_by_id
        upline_l1_id := up.1
        upline_l2_id := up.2.1
        upline_l3_id := up.2.2 }
    some (db ++ [u], u)

/-- The distinct failure exits of the `/auth/register` route
(`auth_routes.register_user_after_firebase`). -/
inductive RegisterError where
  | firebaseUidExists
  | emailExists
  | invalidReferralCode (code : String)
  | createFailed
deriving DecidableEq, Repr

/-- `auth_routes.register_user_after_firebase` after token verification:
duplicate checks, referral-code resolution (an unresolvable code raises a
400 `invalidReferralCode` error, lines 74–84), then `create_user`. -/
def register_user_after_firebase (db : List User)
    (firebase_uid email : String) (referral_code_used : Option String)
    (new_referral_code : String) (newId : Nat) :
    Except RegisterError (List User × User) :=
  if (get_user_by_firebase_uid db firebase_uid).isSome then
    Except.error RegisterError.firebaseUidExists
  else if (get_user_by_email db email).isSome then
    Except.error RegisterError.emailExists
  else
    let referred_by_user_id : Except RegisterError (Option Nat) :=
      match referral_code_used with
      | none => Except.ok none
      | some code =>
        match get_user_by_referral_code db code with
        | none => Except.error (RegisterError.invalidReferralCode code)
        | some referrer => Except.ok (some referrer.id)
    match referred_by_user_id with
    | Except.error e => Except.error e
    | Except.ok rid =>
      match create_user db
          { firebase_uid := firebase_uid
            email := email
            referral_code := some new_referral_code
            referred_by_id := rid } newId with
      | none => Except.error RegisterError.createFailed
      | some r => Except.ok r

/-- `referral_crud.update_referral_earning_status` (lines 89–108): fetch by
id (`none` if absent), set `status` unconditionally, set `notes` only when
the argument is not `None`, write the row back.  No transition check. -/
def update_referral_earning_status (ledger : List ReferralEarning)
    (earning_id : Nat) (new_status : ReferralCommissionStatus)
    (notes : Option String) :
    Option (List ReferralEarning × ReferralEarning) :=
  match ledger.find? (fun e => e.id == earning_id) with
  | none => none
  | some e =>
    let e2 : ReferralEarning :=
      { e with
        status := new_status
        notes := match notes with
                 | some s => some s
                 | none => e.notes }
    some (ledger.map (fun x => if x.id == earning_id then e2 else x), e2)

/-- SQL `IN` against a list of ids; a NULL column never matches. -/
def inIds (x : Option Nat) (ids : List Nat) : Bool :=
  match x with
  | some v => ids.contains v
  | none => false

/-- SQL `SUM(...)` via `.scalar()`: `NULL` (i.e. `none`) on an empty row
set, otherwise the sum. -/
def sqlSum (xs : List ℚ) : Option ℚ :=
  match xs with
  | [] => none
  | _ => some xs.sum

/-- Python's `x or Decimal("0.00")`: both `None` and a falsy zero collapse
to `0.00`. -/
def pyOrZero (x : Option ℚ) : ℚ :=
  match x with
  | none => 0
  | some v => if v == 0 then 0 else v

/-- The `commission_amount`s of a user's earnings in a given status. -/
def earningsAmountsFor (ledger : List ReferralEarning) (uid : Nat)
    (st : ReferralCommissionStatus) : List ℚ :=
  (ledger.filter (fun e => e.user_id == uid && e.status == st)).map
    (fun e => e.commission_amount)

/-- The `ReferralStats` response schema
(`backend/schemas/referral_schema.py`). -/
structure ReferralStats where
  total_direct_referrals : Nat
  total_l1_referrals : Nat
  total_l2_referrals : Nat
  total_l3_referrals : Nat
  pending_commission_total : ℚ
  approved_commission_total : ℚ
  paid_commission_total : ℚ
  lifetime_commission_total : ℚ
deriving DecidableEq, Repr

/-- `referral_crud.get_referral_stats_for_user` (lines 146–184): per-level
descendant counts, per-status sums with the `or Decimal("0.00")`
fallback, and `lifetime = pending + approved + paid`. -/
def get_referral_stats_for_user (db : List User)
    (ledger : List ReferralEarning) (uid : Nat) : ReferralStats :=
  let level1 := db.filter (fun u => u.upline_l1_id == some uid)
  let level1_ids := level1.map (fun u => u.id)
  let level2 := db.filter (fun u => inIds u.upline_l1_id level1_ids)
  let level2_ids := level2.map (fun u => u.id)
  let level3 := db.filter (fun u => inIds u.upline_l1_id level2_ids)
  let pending_sum :=
    pyOrZero (sqlSum (earningsAmountsFor ledger uid
      ReferralCommissionStatus.PENDING))
  let approved_sum :=
    pyOrZero (sqlSum (earningsAmountsFor ledger uid
      ReferralCommissionStatus.APPROVED))
  let paid_sum :=
    pyOrZero (sqlSum (earningsAmountsFor ledger uid
      ReferralCommissionStatus.PAID))
  { total_direct_referrals := level1.length
    total_l1_referrals := level1.length
    total_l2_referrals := level2.length
    total_l3_referrals := level3.length
    pending_commission_total := pending_sum
    approved_commission_total := approved_sum
    paid_commission_total := paid_sum
    lifetime_commission_total := pending_sum + approved_sum + paid_sum }

/-- The per-level result map initialised by `get_downline_users_flat`:
`{level: [] for level in range(1, max_levels + 1)}`. -/
def emptyLevels (max_levels : Nat) : List (Nat × List User) :=
  (List.range max_levels).map (fun i => (i + 1, ([] : List User)))

/-- Assignment `downline_by_level[l] = xs` on the level map. -/
def setLevel (d : List (Nat × List User)) (l : Nat) (xs : List User) :
    List (Nat × List User) :=
  d.map (fun p => if p.1 == l then (p.1, xs) else p)

/-- `referral_crud.get_downline_users_flat` (lines 112–143): level 1 by
direct `upline_l1_id` match, early return when it is empty; level 2 by
`IN` over level-1 ids, early return when empty; level 3 by `IN` over
level-2 ids; each level gated on `max_levels`. -/
def get_downline_users_flat (db : List User) (user_id : Nat)
    (max_levels : Nat) : List (Nat × List User) :=
  let downline_by_level := emptyLevels max_levels
  let level1_users := db.filter (fun u => u.upline_l1_id == some user_id)
  if level1_users.isEmpty then downline_by_level
  else
    let d1 := setLevel downline_by_level 1 level1_users
    if 2 ≤ max_levels then
      let level1_ids := level1_users.map (fun u => u.id)
      if level1_ids.isEmpty then d1
      else
        let level2_users := db.filter (fun u => inIds u.upline_l1_id level1_ids)
        if level2_users.isEmpty then d1
        else
          let d2 := setLevel d1 2 level2_users
          if 3 ≤ max_levels then
            let level2_ids := level2_users.map (fun u => u.id)
            if level2_ids.isEmpty then d2
            else
              setLevel d2 3
                (db.filter (fun u => inIds u.upline_l1_id level2_ids))
          else d2
    else d1

/-- Reading `downline_by_level[l]` from the level map. -/
def lookupLevel (d : List (Nat × List User)) (l : Nat) : List User :=
  match d.find? (fun p => p.1 == l) with
  | none => []
  | some p => p.2

/-- A rational is an exact two-decimal-place value iff its value in cents
is an integer. -/
def isTwoDecimalPlaces (q : ℚ) : Prop := ∃ n : ℤ, q * 100 = (n : ℚ)

/-! ### Sample data used in witnesses and counterexamples -/

/-- A payer with all three upline pointers set (to users 1, 2, 3). -/
def samplePayer : User :=
  { id := 10
    firebase_uid := "fb-10"
    email := "payer@example.com"
    referral_code := some "PAYER10"
    referred_by_id := some 1
    upline_l1_id := some 1
    upline_l2_id := some 2
    upline_l3_id := some 3 }

/-- A payer with only the level-1 upline pointer set. -/
def payerL1only : User :=
  { id := 11
    firebase_uid := "fb-11"
    email := "payer2@example.com"
    referral_code := some "PAYER11"
    referred_by_id := some 1
    upline_l1_id := some 1
    upline_l2_id := none
    upline_l3_id := none }

/-- A succeeded payment of 100.00 by user 10. -/
def samplePayment : Payment := { id := 7, user_id := 10, amount := 100 }

/-- A succeeded payment of 33.33, whose 10% commission is 3.333. -/
def oddCentsPayment : Payment := { id := 8, user_id := 11, amount := 3333/100 }

/-! ### Normal form of the commission loop -/

/-- Folding `commissionStep` over any entry list appends exactly the rows
of `rowsFrom`, with ids continuing from the current table length. -/
theorem foldl_commissionStep (payer : User) (payment : Payment) :
    ∀ (entries : List (Option Nat × ℚ × Nat)) (ledger : List ReferralEarning),
      entries.foldl (commissionStep payer payment) ledger
        = ledger ++ rowsFrom payer payment entries ledger.length := by
  intro entries
  induction entries with
  | nil => intro ledger; simp [rowsFrom]
  | cons t rest ih =>
    intro ledger
    match t with
    | (none, r, l) =>
      simp only [List.foldl_cons, commissionStep, rowsFrom]
      exact ih ledger
    | (some uid, r, l) =>
      simp only [List.foldl_cons, commissionStep, rowsFrom,
        create_referral_earning]
      rw [ih]
      simp [pendingRow, List.append_assoc]

/-- The commission loop appends `rowsFrom` over the three
(upline, rate, level) entries to the existing ledger. -/
theorem commissionLoop_eq (payer : User) (payment : Payment)
    (rates : CommissionRates) (ledger : List ReferralEarning) :
    commissionLoop payer payment rates ledger
      = ledger
          ++ rowsFrom payer payment (uplineUsersAndRates payer rates)
              ledger.length :=
  foldl_commissionStep payer payment (uplineUsersAndRates payer rates) ledger

/-- `keyCount` distributes over ledger concatenation. -/
theorem keyCount_append (l1 l2 : List ReferralEarning) (u : Nat)
    (pid : Option Nat) (level : Nat) :
    keyCount (l1 ++ l2) u pid level
      = keyCount l1 u pid level + keyCount l2 u pid level := by
  simp [keyCount, List.filter_append]

/-- When the payer's level-1 upline is `u`, the rows appended by one run
of the loop contain exactly one row keyed (u, payment, level 1). -/
theorem rowsFrom_keyCount_l1 (payer : User) (payment : Payment)
    (rates : CommissionRates) (u : Nat) (n : Nat)
    (h : payer.upline_l1_id = some u) :
    keyCount (rowsFrom payer payment (uplineUsersAndRates payer rates) n)
      u (some payment.id) 1 = 1 := by
  cases h2 : payer.upline_l2_id <;> cases h3 : payer.upline_l3_id <;>
    simp [uplineUsersAndRates, rowsFrom, keyCount, pendingRow, h, h2, h3]

/-- Every row appended by the loop has
`commission_amount = payment.amount * commission_rate` exactly — no
rounding step is applied. -/
theorem rowsFrom_amount_eq (payer : User) (payment : Payment) :
    ∀ (entries : List (Option Nat × ℚ × Nat)) (n : Nat),
      ∀ e ∈ rowsFrom payer payment entries n,
        e.commission_amount = payment.amount * e.commission_rate := by
  intro entries
  induction entries with
  | nil => intro n e he; simp [rowsFrom] at he
  | cons t rest ih =>
    intro n e he
    match t with
    | (none, r, l) => exact ih n e (by simpa [rowsFrom] using he)
    | (some uid, r, l) =>
      simp only [rowsFrom, List.mem_cons] at he
      rcases he with he | he
      · subst he; rfl
      · exact ih (n + 1) e he

/-! ### Claim theorems: the commission rule engine -/

/-- Claim C5: for a payment of 100.00 whose payer has all three upline
pointers set, with rates L1=0.10, L2=0.05, L3=0.02, the webhook commission
loop creates exactly three PENDING rows with amounts 10.00, 5.00, 2.00 at
levels 1, 2, 3. -/
theorem commission_rate_application_100 :
    (commissionLoop samplePayer samplePayment defaultRates []).length = 3
    ∧ (commissionLoop samplePayer samplePayment defaultRates []).map
        (fun e => (e.referral_level, e.commission_amount, e.status))
      = [(1, 10, ReferralCommissionStatus.PENDING),
         (2, 5, ReferralCommissionStatus.PENDING),
         (3, 2, ReferralCommissionStatus.PENDING)] := by
  constructor
  · rfl
  · norm_num [commissionLoop, uplineUsersAndRates, commissionStep,
      create_referral_earning, samplePayer, samplePayment, defaultRates]

/-- Claim C7: the loop creates one CommissionEarning per non-null upline
pointer and silently skips null levels; a payer with only `upline_l1_id`
set yields exactly one appended row, at level 1 with the L1 rate. -/
theorem commission_per_nonnull_upline (payer : User) (payment : Payment)
    (rates : CommissionRates) (ledger : List ReferralEarning) :
    (commissionLoop payer payment rates ledger).length
      = ledger.length + nonNullUplineCount payer
    ∧ (∀ u, payer.upline_l1_id = some u → payer.upline_l2_id = none →
        payer.upline_l3_id = none →
        commissionLoop payer payment rates ledger
          = ledger ++ [pendingRow payer payment rates.l1 1 u ledger.length]) := by
  constructor
  · rw [commissionLoop_eq]
    cases h1 : payer.upline_l1_id <;> cases h2 : payer.upline_l2_id <;>
      cases h3 : payer.upline_l3_id <;>
      simp [uplineUsersAndRates, rowsFrom, nonNullUplineCount, h1, h2, h3]
  · intro u h1 h2 h3
    rw [commissionLoop_eq]
    simp [uplineUsersAndRates, rowsFrom, h1, h2, h3]

/-- Witness for C7 at a concrete payer with only L1 set. -/
theorem commission_per_nonnull_upline_witness :
    payerL1only.upline_l1_id = some 1
    ∧ commissionLoop payerL1only samplePayment defaultRates []
        = [] ++ [pendingRow payerL1only samplePayment defaultRates.l1 1 1
            (List.length ([] : List ReferralEarning))] :=
  ⟨rfl,
   (commission_per_nonnull_upline payerL1only samplePayment defaultRates
      []).2 1 rfl rfl rfl⟩

/-- Counterexample to claim C1: running the commission loop twice for the
same payment does not yield the same rows as running it once — the
(earning user 1, payment 7, level 1) key is duplicated. -/
theorem commission_idempotence_cex :
    commissionLoop payerL1only samplePayment defaultRates
        (commissionLoop payerL1only samplePayment defaultRates [])
      ≠ commissionLoop payerL1only samplePayment defaultRates []
    ∧ keyCount (commissionLoop payerL1only samplePayment defaultRates
        (commissionLoop payerL1only samplePayment defaultRates []))
        1 (some 7) 1 = 2
    ∧ keyCount (commissionLoop payerL1only samplePayment defaultRates [])
        1 (some 7) 1 = 1 := by
  have h1 : keyCount (commissionLoop payerL1only samplePayment defaultRates
      []) 1 (some 7) 1 = 1 := by decide
  have h2 : keyCount (commissionLoop payerL1only samplePayment defaultRates
      (commissionLoop payerL1only samplePayment defaultRates []))
      1 (some 7) 1 = 2 := by decide
  refine ⟨fun heq => ?_, h2, h1⟩
  rw [heq, h1] at h2
  exact absurd h2 (by decide)

/-- Claim C1 amended: commission generation is not idempotent — each
invocation appends a fresh row per non-null upline with no duplicate
check, so a second run for the same payment creates a duplicate
(earning user, source payment, level) key and changes the ledger. -/
theorem commission_generation_not_idempotent (payer : User)
    (payment : Payment) (rates : CommissionRates) (u : Nat)
    (h : payer.upline_l1_id = some u) :
    keyCount (commissionLoop payer payment rates []) u (some payment.id) 1
      = 1
    ∧ keyCount (commissionLoop payer payment rates
        (commissionLoop payer payment rates []))
        u (some payment.id) 1 = 2
    ∧ commissionLoop payer payment rates
        (commissionLoop payer payment rates [])
      ≠ commissionLoop payer payment rates [] := by
  have h1 : keyCount (commissionLoop payer payment rates [])
      u (some payment.id) 1 = 1 := by
    rw [commissionLoop_eq, keyCount_append]
    simpa [keyCount] using rowsFrom_keyCount_l1 payer payment rates u 0 h
  have h2 : keyCount (commissionLoop payer payment rates
      (commissionLoop payer payment rates []))
      u (some payment.id) 1 = 2 := by
    rw [commissionLoop_eq payer payment rates
        (commissionLoop payer payment rates []),
      keyCount_append, h1,
      rowsFrom_keyCount_l1 payer payment rates u _ h]
  refine ⟨h1, h2, fun heq => ?_⟩
  rw [heq, h1] at h2
  exact absurd h2 (by decide)

/-- Witness for the amended C1 at a concrete payer and payment. -/
theorem commission_generation_not_idempotent_witness :
    payerL1only.upline_l1_id = some 1
    ∧ keyCount (commissionLoop payerL1only samplePayment defaultRates
        (commissionLoop payerL1only samplePayment defaultRates []))
        1 (some samplePayment.id) 1 = 2 :=
  ⟨rfl,
   (commission_generation_not_idempotent payerL1only samplePayment
      defaultRates 1 rfl).2.1⟩

/-- Counterexample to claim C6: for a 33.33 payment at rate 0.10 the
stored commission amount is 3.333, which is not a two-decimal-place
value — no rounding to the currency's minor unit is applied. -/
theorem commission_rounding_cex :
    ((commissionLoop payerL1only oddCentsPayment defaultRates []).map
        (fun e => e.commission_amount) = [3333/1000])
    ∧ ¬ isTwoDecimalPlaces (3333/1000) := by
  constructor
  · norm_num [commissionLoop, uplineUsersAndRates, commissionStep,
      create_referral_earning, payerL1only, oddCentsPayment, defaultRates]
  · rintro ⟨n, hn⟩
    have hq : (3333 : ℚ) = 10 * (n : ℚ) := by
      field_simp at hn
      linarith
    have hz : (3333 : ℤ) = 10 * n := by exact_mod_cast hq
    omega

/-- Claim C6 amended: the commission amount is computed as
`payment.amount * R_L` in exact decimal arithmetic, by the same
expression at every level of the same payment, but the processing code
applies no rounding to two decimal places — the exact product is what is
handed to storage. -/
theorem commission_amount_exact_unrounded (payer : User) (payment : Payment)
    (rates : CommissionRates) (ledger : List ReferralEarning) :
    commissionLoop payer payment rates ledger
      = ledger
          ++ rowsFrom payer payment (uplineUsersAndRates payer rates)
              ledger.length
    ∧ ∀ e ∈ rowsFrom payer payment (uplineUsersAndRates payer rates)
          ledger.length,
        e.commission_amount = payment.amount * e.commission_rate :=
  ⟨commissionLoop_eq payer payment rates ledger,
   rowsFrom_amount_eq payer payment (uplineUsersAndRates payer rates)
     ledger.length⟩

/-- Witness for the amended C6: the level-1 row of a concrete run carries
the exact product. -/
theorem commission_amount_exact_unrounded_witness :
    pendingRow payerL1only oddCentsPayment defaultRates.l1 1 1 0
        ∈ rowsFrom payerL1only oddCentsPayment
            (uplineUsersAndRates payerL1only defaultRates)
            (List.length ([] : List ReferralEarning))
    ∧ (pendingRow payerL1only oddCentsPayment defaultRates.l1 1 1
        0).commission_amount
      = oddCentsPayment.amount
          * (pendingRow payerL1only oddCentsPayment defaultRates.l1 1 1
              0).commission_rate :=
  ⟨List.mem_singleton.mpr rfl,
   (commission_amount_exact_unrounded payerL1only oddCentsPayment
      defaultRates []).2 _ (List.mem_singleton.mpr rfl)⟩

/-! ### Claim theorems: ledger status updates -/

/-- A sample earning already in status PAID. -/
def paidEarning : ReferralEarning :=
  { id := 0
    user_id := 1
    referred_user_id := some 2
    source_payment_id := some 3
    commission_amount := 10
    commission_rate := 1/10
    referral_level := 1
    status := ReferralCommissionStatus.PAID
    notes := some "payout done"
    created_at := 0 }

/-- Counterexample to claim C2: requesting PAID→PENDING is not rejected —
the update succeeds and the stored status becomes PENDING. -/
theorem update_status_transition_cex :
    update_referral_earning_status [paidEarning] 0
        ReferralCommissionStatus.PENDING none
      = some
          ([{ paidEarning with status := ReferralCommissionStatus.PENDING }],
           { paidEarning with status := ReferralCommissionStatus.PENDING }) :=
  rfl

/-- Claim C2 amended: `update_referral_earning_status` validates no
transition — for every existing earning, any requested status (in
particular PAID→PENDING) is applied unconditionally and stored; only a
missing earning id yields a not-found result. -/
theorem update_status_applies_any_transition
    (ledger : List ReferralEarning) (eid : Nat)
    (st : ReferralCommissionStatus) (notes : Option String)
    (e : ReferralEarning)
    (h : ledger.find? (fun x => x.id == eid) = some e) :
    ∃ led2 e2,
      update_referral_earning_status ledger eid st notes = some (led2, e2)
      ∧ e2.status = st := by
  unfold update_referral_earning_status
  rw [h]
  exact ⟨_, _, rfl, rfl⟩

/-- Witness for the amended C2 at a concrete PAID earning. -/
theorem update_status_applies_any_transition_witness :
    ([paidEarning].find? (fun x => x.id == 0) = some paidEarning)
    ∧ ∃ led2 e2,
        update_referral_earning_status [paidEarning] 0
            ReferralCommissionStatus.PENDING none = some (led2, e2)
        ∧ e2.status = ReferralCommissionStatus.PENDING :=
  ⟨rfl,
   update_status_applies_any_transition [paidEarning] 0
     ReferralCommissionStatus.PENDING none paidEarning rfl⟩

/-- Claim C10: a status update changes only `status` and (when a notes
argument is given) `notes`; amount, rate, level, earner and source
references, id and creation time are untouched, a `none` notes argument
preserves the stored notes, and rows with other ids are written back
unchanged. -/
theorem update_status_frame (ledger : List ReferralEarning) (eid : Nat)
    (st : ReferralCommissionStatus) (notes : Option String)
    (e : ReferralEarning)
    (h : ledger.find? (fun x => x.id == eid) = some e) :
    ∃ led2 e2,
      update_referral_earning_status ledger eid st notes = some (led2, e2)
      ∧ e2.user_id = e.user_id
      ∧ e2.referred_user_id = e.referred_user_id
      ∧ e2.source_payment_id = e.source_payment_id
      ∧ e2.commission_amount = e.commission_amount
      ∧ e2.commission_rate = e.commission_rate
      ∧ e2.referral_level = e.referral_level
      ∧ e2.id = e.id
      ∧ e2.created_at = e.created_at
      ∧ (notes = none → e2.notes = e.notes)
      ∧ led2 = ledger.map (fun x => if x.id == eid then e2 else x)
      ∧ ∀ x ∈ ledger, (x.id == eid) = false → x ∈ led2 := by
  unfold update_referral_earning_status
  rw [h]
  refine ⟨_, _, rfl, rfl, rfl, rfl, rfl, rfl, rfl, rfl, rfl, ?_, rfl, ?_⟩
  · intro hn
    subst hn
    rfl
  · intro x hx hne
    have hfix :
        (fun y : ReferralEarning =>
          if y.id == eid then
            { e with
              status := st
              notes := match notes with
                       | some s => some s
                       | none => e.notes }
          else y) x = x := by
      simp [hne]
    exact hfix ▸ List.mem_map_of_mem _ hx

/-- Witness for C10 at a concrete earning, with a `none` notes argument. -/
theorem update_status_frame_witness :
    ([paidEarning].find? (fun x => x.id == 0) = some paidEarning)
    ∧ ∃ led2 e2,
        update_referral_earning_status [paidEarning] 0
            ReferralCommissionStatus.REJECTED none = some (led2, e2)
        ∧ e2.user_id = paidEarning.user_id
        ∧ e2.referred_user_id = paidEarning.referred_user_id
        ∧ e2.source_payment_id = paidEarning.source_payment_id
        ∧ e2.commission_amount = paidEarning.commission_amount
        ∧ e2.commission_rate = paidEarning.commission_rate
        ∧ e2.referral_level = paidEarning.referral_level
        ∧ e2.id = paidEarning.id
        ∧ e2.created_at = paidEarning.created_at
        ∧ ((none : Option String) = none → e2.notes = paidEarning.notes)
        ∧ led2 = [paidEarning].map (fun x => if x.id == 0 then e2 else x)
        ∧ ∀ x ∈ [paidEarning], (x.id == 0) = false → x ∈ led2 :=
  ⟨rfl,
   update_status_frame [paidEarning] 0 ReferralCommissionStatus.REJECTED
     none paidEarning rfl⟩

/-! ### Claim theorems: registration and lineage -/

/-- Counterexample to claim C3: on an empty user table, registering with
referral code "NOCODE" raises the invalid-referral-code error (HTTP 400)
instead of succeeding with null uplines. -/
theorem register_invalid_code_cex :
    register_user_after_firebase [] "fb-new" "new@example.com"
        (some "NOCODE") "NEWCODE" 1
      = Except.error (RegisterError.invalidReferralCode "NOCODE") :=
  rfl

/-- Claim C3 amended: a referral code matching no user does not degrade
to a null referrer — registration is rejected with the
invalid-referral-code error and no user is created. -/
theorem register_unresolvable_code_rejected (db : List User)
    (fuid email code newCode : String) (newId : Nat)
    (h1 : get_user_by_firebase_uid db fuid = none)
    (h2 : get_user_by_email db email = none)
    (h3 : get_user_by_referral_code db code = none) :
    register_user_after_firebase db fuid email (some code) newCode newId
      = Except.error (RegisterError.invalidReferralCode code) := by
  simp [register_user_after_firebase, h1, h2, h3]

/-- Witness for the amended C3 on the empty table. -/
theorem register_unresolvable_code_rejected_witness :
    get_user_by_referral_code [] "NOCODE" = none
    ∧ register_user_after_firebase [] "fb-reg" "reg@example.com"
        (some "NOCODE") "NEWCODE" 1
      = Except.error (RegisterError.invalidReferralCode "NOCODE") :=
  ⟨rfl,
   register_unresolvable_code_rejected [] "fb-reg" "reg@example.com"
     "NOCODE" "NEWCODE" 1 rfl rfl rfl⟩

/-- The chain-shape and snapshot invariant `create_user` maintains for
every stored user: a null L1 pointer forces a null L2 pointer, and when
L1 points to `u1`, `u1` is present in the table and the stored L2
snapshot equals `u1`'s own L1 pointer. -/
def lineageSnapshotOK (db : List User) (r : User) : Prop :=
  (r.upline_l1_id = none → r.upline_l2_id = none)
  ∧ ∀ uid1, r.upline_l1_id = some uid1 →
      ∃ u1, get_user_by_id db uid1 = some u1
        ∧ u1.upline_l1_id = r.upline_l2_id

/-- With no referrer the computed uplines are all null. -/
theorem computeUplines_none (db : List User) :
    computeUplines db none = (none, none, none) := rfl

/-- For a resolvable referrer satisfying the snapshot invariant, the
computed uplines are (referrer, referrer's L1, referrer's L2). -/
theorem computeUplines_some (db : List User) (rid : Nat) (r : User)
    (hr : get_user_by_id db rid = some r)
    (hok : lineageSnapshotOK db r) :
    computeUplines db (some rid)
      = (some r.id, r.upline_l1_id, r.upline_l2_id) := by
  unfold computeUplines
  simp only [hr]
  cases h1 : r.upline_l1_id with
  | none =>
    have h2 := hok.1 h1
    simp [h2]
  | some uid1 =>
    obtain ⟨u1, hu1, hsnap⟩ := hok.2 uid1 h1
    simp only [hu1]
    cases h3 : u1.upline_l1_id with
    | none =>
      rw [h3] at hsnap
      simp [← hsnap]
    | some z => simp

/-- Claim C4: a user created with a resolvable referrer R gets upline
pointers exactly (R.id, R.upline_l1_id, R.upline_l2_id); a user created
with no referrer gets all three pointers null. -/
theorem create_user_upline_pointers (db : List User)
    (d : UserCreateInternal) (newId : Nat) (db2 : List User) (u : User)
    (hc : create_user db d newId = some (db2, u)) :
    (d.referred_by_id = none →
      u.upline_l1_id = none ∧ u.upline_l2_id = none
        ∧ u.upline_l3_id = none)
    ∧ ∀ rid r, d.referred_by_id = some rid →
        get_user_by_id db rid = some r →
        lineageSnapshotOK db r →
        u.upline_l1_id = some r.id ∧ u.upline_l2_id = r.upline_l1_id
          ∧ u.upline_l3_id = r.upline_l2_id := by
  unfold create_user at hc
  by_cases hf : (get_user_by_firebase_uid db d.firebase_uid).isSome
  · rw [if_pos hf] at hc
    exact absurd hc (by simp)
  · rw [if_neg hf] at hc
    by_cases he : (get_user_by_email db d.email).isSome
    · rw [if_pos he] at hc
      exact absurd hc (by simp)
    · rw [if_neg he] at hc
      simp only [Option.some.injEq, Prod.mk.injEq] at hc
      obtain ⟨-, hu⟩ := hc
      constructor
      · intro hnone
        rw [← hu]
        simp [hnone, computeUplines_none]
      · intro rid r hrid hr hok
        rw [← hu]
        simp [hrid, computeUplines_some db rid r hr hok]

/-- The referrer chain used by the C4 witness: user 3 (no uplines) referred
user 2, who referred user 1. -/
def userTop : User :=
  { id := 3
    firebase_uid := "fb-3"
    email := "u3@example.com"
    referral_code := some "CODE3"
    referred_by_id := none
    upline_l1_id := none
    upline_l2_id := none
    upline_l3_id := none }

/-- Middle user of the witness chain. -/
def userMid : User :=
  { id := 2
    firebase_uid := "fb-2"
    email := "u2@example.com"
    referral_code := some "CODE2"
    referred_by_id := some 3
    upline_l1_id := some 3
    upline_l2_id := none
    upline_l3_id := none }

/-- Direct referrer of the witness's new user. -/
def userRef : User :=
  { id := 1
    firebase_uid := "fb-1"
    email := "u1@example.com"
    referral_code := some "CODE1"
    referred_by_id := some 2
    upline_l1_id := some 2
    upline_l2_id := some 3
    upline_l3_id := none }

/-- The user table for the C4 witness. -/
def lineageDb : List User := [userRef, userMid, userTop]

/-- Creation payload referring to user 1. -/
def newUserData : UserCreateInternal :=
  { firebase_uid := "fb-4"
    email := "u4@example.com"
    referral_code := some "CODE4"
    referred_by_id := some 1 }

/-- The row `create_user` produces for `newUserData` on `lineageDb`. -/
def newUserExpected : User :=
  { id := 4
    firebase_uid := "fb-4"
    email := "u4@example.com"
    referral_code := some "CODE4"
    referred_by_id := some 1
    upline_l1_id := some 1
    upline_l2_id := some 2
    upline_l3_id := some 3 }

/-- Witness for C4 on a concrete three-user chain: the new user's
pointers are exactly (R.id, R's L1, R's L2) = (1, 2, 3). -/
theorem create_user_upline_pointers_witness :
    create_user lineageDb newUserData 4
      = some (lineageDb ++ [newUserExpected], newUserExpected)
    ∧ newUserExpected.upline_l1_id = some userRef.id
    ∧ newUserExpected.upline_l2_id = userRef.upline_l1_id
    ∧ newUserExpected.upline_l3_id = userRef.upline_l2_id :=
  ⟨rfl,
   (create_user_upline_pointers lineageDb newUserData 4
       (lineageDb ++ [newUserExpected]) newUserExpected rfl).2 1 userRef rfl
     rfl
     ⟨fun hcon => Option.noConfusion hcon,
      fun uid1 h => by
        have huid : uid1 = 2 := by
          have h2 : some 2 = some uid1 := h
          exact (Option.some.injEq 2 uid1 ▸ h2).symm
        subst huid
        exact ⟨userMid, rfl, rfl⟩⟩⟩

/-- A user found in the old table is still found, unchanged, after a row
is appended. -/
theorem get_user_by_id_append (db : List User) (v : User) (x : Nat)
    (w : User) (h : get_user_by_id db x = some w) :
    get_user_by_id (db ++ [v]) x = some w := by
  unfold get_user_by_id at h ⊢
  rw [List.find?_append, h]
  rfl

/-- A user found by id has that id. -/
theorem get_user_by_id_id (db : List User) (x : Nat) (w : User)
    (h : get_user_by_id db x = some w) : w.id = x := by
  have := List.find?_some h
  simpa using this

/-- `create_user` preserves the snapshot invariant: if every user of the
table satisfies it, every user of the table after a creation does too —
so the hypothesis of the C4 theorem holds in every reachable store. -/
theorem create_user_preserves_snapshotOK (db : List User)
    (d : UserCreateInternal) (newId : Nat) (db2 : List User) (u : User)
    (hc : create_user db d newId = some (db2, u))
    (hall : ∀ r ∈ db, lineageSnapshotOK db r) :
    ∀ r ∈ db2, lineageSnapshotOK db2 r := by
  unfold create_user at hc
  by_cases hf : (get_user_by_firebase_uid db d.firebase_uid).isSome
  · rw [if_pos hf] at hc
    exact absurd hc (by simp)
  · rw [if_neg hf] at hc
    by_cases he : (get_user_by_email db d.email).isSome
    · rw [if_pos he] at hc
      exact absurd hc (by simp)
    · rw [if_neg he] at hc
      simp only [Option.some.injEq, Prod.mk.injEq] at hc
      obtain ⟨hdb2, hu⟩ := hc
      subst hdb2
      subst hu
      intro r hr
      rw [List.mem_append] at hr
      cases hr with
      | inl hold =>
        obtain ⟨hsh, hsnap⟩ := hall r hold
        refine ⟨hsh, fun uid1 h1 => ?_⟩
        obtain ⟨u1, hu1, hl⟩ := hsnap uid1 h1
        exact ⟨u1, get_user_by_id_append db _ uid1 u1 hu1, hl⟩
      | inr hnew =>
        have hrn := List.mem_singleton.mp hnew
        subst hrn
        cases hrid : d.referred_by_id with
        | none =>
          exact ⟨fun _ => by simp [hrid, computeUplines_none],
            fun uid1 hx => absurd hx (by simp [hrid, computeUplines_none])⟩
        | some rid =>
          cases hget : get_user_by_id db rid with
          | none =>
            refine ⟨fun _ => ?_, fun uid1 hx => absurd hx ?_⟩
            · simp [hrid, computeUplines, hget]
            · simp [hrid, computeUplines, hget]
          | some r0 =>
            have hid : r0.id = rid := get_user_by_id_id db rid r0 hget
            have hget0 : ∀ v : User,
                get_user_by_id (db ++ [v]) r0.id = some r0 := by
              intro v
              apply get_user_by_id_append
              rw [hid]
              exact hget
            cases hl1 : r0.upline_l1_id with
            | none =>
              refine ⟨fun _ => ?_, fun uid1 hx => ?_⟩
              · simp [hrid, computeUplines, hget, hl1]
              · have huid1 : uid1 = r0.id := by
                  simp [hrid, computeUplines, hget, hl1] at hx
                  exact hx.symm ▸ rfl
                subst huid1
                exact ⟨r0, hget0 _, by
                  simp [hrid, computeUplines, hget, hl1]⟩
            | some l1id =>
              refine ⟨fun hx => absurd hx ?_, fun uid1 hx => ?_⟩
              · simp [hrid, computeUplines, hget, hl1]
              · have huid1 : uid1 = r0.id := by
                  simp [hrid, computeUplines, hget, hl1] at hx
                  exact hx.symm ▸ rfl
                subst huid1
                exact ⟨r0, hget0 _, by
                  simp [hrid, computeUplines, hget, hl1]⟩

/-! ### Claim theorems: aggregate stats -/

/-- The SQL-sum-with-falsy-fallback used by the stats query equals the
plain exact sum of the amounts. -/
theorem pyOrZero_sqlSum (xs : List ℚ) : pyOrZero (sqlSum xs) = xs.sum := by
  cases xs with
  | nil => rfl
  | cons a t =>
    simp only [sqlSum, pyOrZero, beq_iff_eq]
    by_cases h : a + t.sum = 0 <;> simp [h]

/-- Intersecting an extra conjunct into a filter that is already empty
keeps it empty. -/
theorem filter_and_nil {α : Type} (p q : α → Bool) (l : List α)
    (h : l.filter p = []) : l.filter (fun a => p a && q a) = [] := by
  induction l with
  | nil => rfl
  | cons a t ih =>
    cases hp : p a with
    | true => simp [List.filter_cons, hp] at h
    | false =>
      rw [List.filter_cons, if_neg (by simp [hp])] at h
      rw [List.filter_cons, if_neg (by simp [hp])]
      exact ih h

/-- Claim C8: the stats totals are the exact-decimal sums of the user's
earnings grouped by status, lifetime is their sum, and a user with zero
matching rows gets 0.00 in every total. -/
theorem referral_stats_totals (db : List User)
    (ledger : List ReferralEarning) (uid : Nat) :
    (get_referral_stats_for_user db ledger uid).pending_commission_total
        = (earningsAmountsFor ledger uid
            ReferralCommissionStatus.PENDING).sum
    ∧ (get_referral_stats_for_user db ledger uid).approved_commission_total
        = (earningsAmountsFor ledger uid
            ReferralCommissionStatus.APPROVED).sum
    ∧ (get_referral_stats_for_user db ledger uid).paid_commission_total
        = (earningsAmountsFor ledger uid
            ReferralCommissionStatus.PAID).sum
    ∧ (get_referral_stats_for_user db ledger uid).lifetime_commission_total
        = (get_referral_stats_for_user db ledger
              uid).pending_commission_total
          + (get_referral_stats_for_user db ledger
              uid).approved_commission_total
          + (get_referral_stats_for_user db ledger
              uid).paid_commission_total
    ∧ (ledger.filter (fun e => e.user_id == uid) = [] →
        (get_referral_stats_for_user db ledger
            uid).pending_commission_total = 0
        ∧ (get_referral_stats_for_user db ledger
            uid).approved_commission_total = 0
        ∧ (get_referral_stats_for_user db ledger
            uid).paid_commission_total = 0
        ∧ (get_referral_stats_for_user db ledger
            uid).lifetime_commission_total = 0) := by
  refine ⟨?_, ?_, ?_, ?_, ?_⟩
  · simp [get_referral_stats_for_user, pyOrZero_sqlSum]
  · simp [get_referral_stats_for_user, pyOrZero_sqlSum]
  · simp [get_referral_stats_for_user, pyOrZero_sqlSum]
  · simp [get_referral_stats_for_user, pyOrZero_sqlSum]
  · intro hz
    have hp := filter_and_nil _
      (fun e => e.status == ReferralCommissionStatus.PENDING) _ hz
    have ha := filter_and_nil _
      (fun e => e.status == ReferralCommissionStatus.APPROVED) _ hz
    have hpd := filter_and_nil _
      (fun e => e.status == ReferralCommissionStatus.PAID) _ hz
    refine ⟨?_, ?_, ?_, ?_⟩ <;>
      simp [get_referral_stats_for_user, pyOrZero_sqlSum,
        earningsAmountsFor, hp, ha, hpd]

/-- The earnings ledger of the C8 example: user 1 has 10.00 PENDING,
5.00 APPROVED and 3.00 PAID. -/
def exampleEarnings : List ReferralEarning :=
  [{ id := 0
     user_id := 1
     referred_user_id := some 9
     source_payment_id := some 5
     commission_amount := 10
     commission_rate := 1/10
     referral_level := 1
     status := ReferralCommissionStatus.PENDING
     notes := none
     created_at := 0 },
   { id := 1
     user_id := 1
     referred_user_id := some 9
     source_payment_id := some 6
     commission_amount := 5
     commission_rate := 1/20
     referral_level := 2
     status := ReferralCommissionStatus.APPROVED
     notes := none
     created_at := 1 },
   { id := 2
     user_id := 1
     referred_user_id := some 9
     source_payment_id := some 7
     commission_amount := 3
     commission_rate := 1/50
     referral_level := 3
     status := ReferralCommissionStatus.PAID
     notes := none
     created_at := 2 }]

/-- Witness for C8: the example totals 10.00 / 5.00 / 3.00 / 18.00 for
user 1, and all-zero totals for user 2 who has no rows. -/
theorem referral_stats_totals_witness :
    exampleEarnings.filter (fun e => e.user_id == 2) = []
    ∧ (get_referral_stats_for_user [] exampleEarnings
        2).lifetime_commission_total = 0
    ∧ (get_referral_stats_for_user [] exampleEarnings
        1).pending_commission_total = 10
    ∧ (get_referral_stats_for_user [] exampleEarnings
        1).approved_commission_total = 5
    ∧ (get_referral_stats_for_user [] exampleEarnings
        1).paid_commission_total = 3
    ∧ (get_referral_stats_for_user [] exampleEarnings
        1).lifetime_commission_total = 18 := by
  have hz := (referral_stats_totals [] exampleEarnings 2).2.2.2.2 rfl
  have h1 := referral_stats_totals [] exampleEarnings 1
  refine ⟨rfl, hz.2.2.2, ?_, ?_, ?_, ?_⟩
  · rw [h1.1,
      show earningsAmountsFor exampleEarnings 1
          ReferralCommissionStatus.PENDING = [10] from rfl]
    simp
  · rw [h1.2.1,
      show earningsAmountsFor exampleEarnings 1
          ReferralCommissionStatus.APPROVED = [5] from rfl]
    simp
  · rw [h1.2.2.1,
      show earningsAmountsFor exampleEarnings 1
          ReferralCommissionStatus.PAID = [3] from rfl]
    simp
  · rw [h1.2.2.2.1, h1.1, h1.2.1, h1.2.2.1,
      show earningsAmountsFor exampleEarnings 1
          ReferralCommissionStatus.PENDING = [10] from rfl,
      show earningsAmountsFor exampleEarnings 1
          ReferralCommissionStatus.APPROVED = [5] from rfl,
      show earningsAmountsFor exampleEarnings 1
          ReferralCommissionStatus.PAID = [3] from rfl]
    norm_num

/-! ### Claim theorems: downline traversal -/

/-- Level 1 of the downline as claim C9 states it: users whose
`upline_l1_id` equals the root user's id. -/
def specLevel1 (db : List User) (uid : Nat) : List User :=
  db.filter (fun u => u.upline_l1_id == some uid)

/-- Level 2 as claim C9 states it: users whose `upline_l1_id` lies in the
level-1 id set. -/
def specLevel2 (db : List User) (uid : Nat) : List User :=
  db.filter (fun u =>
    inIds u.upline_l1_id ((specLevel1 db uid).map (fun v => v.id)))

/-- Level 3 as claim C9 states it: users whose `upline_l1_id` lies in the
level-2 id set. -/
def specLevel3 (db : List User) (uid : Nat) : List User :=
  db.filter (fun u =>
    inIds u.upline_l1_id ((specLevel2 db uid).map (fun v => v.id)))

/-- A NULL or arbitrary pointer is never `IN` an empty id list. -/
theorem inIds_nil (x : Option Nat) : inIds x [] = false := by
  cases x <;> rfl

/-- Filtering on membership in an empty id list yields no rows. -/
theorem filter_inIds_nil (l : List User) :
    l.filter (fun u => inIds u.upline_l1_id []) = [] := by
  induction l with
  | nil => rfl
  | cons a t ih =>
    rw [List.filter_cons, if_neg (by simp [inIds_nil])]
    exact ih

/-- A non-empty user list has a non-empty id projection. -/
theorem isEmpty_map_id {l : List User} (h : l.isEmpty = false) :
    (l.map (fun u => u.id)).isEmpty = false := by
  cases l <;> simp_all

/-- Closed form of `get_downline_users_flat` at `max_levels = 3` in terms
of the three per-level filters, reflecting both early returns. -/
theorem get_downline_3_eq (db : List User) (uid : Nat) :
    get_downline_users_flat db uid 3
      = if specLevel1 db uid = [] then [(1, []), (2, []), (3, [])]
        else if specLevel2 db uid = [] then
          [(1, specLevel1 db uid), (2, []), (3, [])]
        else
          [(1, specLevel1 db uid), (2, specLevel2 db uid),
           (3, specLevel3 db uid)] := by
  unfold get_downline_users_flat
  cases h1 : (db.filter (fun u => u.upline_l1_id == some uid)).isEmpty with
  | true =>
    have h1e : specLevel1 db uid = [] := by
      simpa [specLevel1] using h1
    rw [if_pos h1, if_pos h1e]
    rfl
  | false =>
    have h1ne : ¬ specLevel1 db uid = [] := by
      simpa [specLevel1] using h1
    rw [if_neg (show ¬ (db.filter
          (fun u => u.upline_l1_id == some uid)).isEmpty = true by
        simp [h1]),
      if_neg h1ne, if_pos (show (2:Nat) ≤ 3 by norm_num),
      if_neg (show ¬ ((db.filter
          (fun u => u.upline_l1_id == some uid)).map
            (fun u => u.id)).isEmpty = true by
        simp [isEmpty_map_id h1])]
    cases h2 : (db.filter (fun u =>
        inIds u.upline_l1_id
          ((db.filter (fun u => u.upline_l1_id == some uid)).map
            (fun u => u.id)))).isEmpty with
    | true =>
      have h2e : specLevel2 db uid = [] := by
        simpa [specLevel2, specLevel1] using h2
      rw [if_pos h2, if_pos h2e]
      rfl
    | false =>
      have h2ne : ¬ specLevel2 db uid = [] := by
        simpa [specLevel2, specLevel1] using h2
      rw [if_neg (show ¬ (db.filter (fun u =>
            inIds u.upline_l1_id
              ((db.filter (fun u => u.upline_l1_id == some uid)).map
                (fun u => u.id)))).isEmpty = true by
          simp [h2]),
        if_neg h2ne, if_pos (show (3:Nat) ≤ 3 by norm_num),
        if_neg (show ¬ ((db.filter (fun u =>
            inIds u.upline_l1_id
              ((db.filter (fun u => u.upline_l1_id == some uid)).map
                (fun u => u.id)))).map (fun u => u.id)).isEmpty = true by
          simp [isEmpty_map_id h2])]
      rfl

/-- Claim C9: at `maxLevels = 3` the traversal returns exactly the three
per-level filters — level 1 by direct pointer match, level 2 over the
level-1 id set, level 3 over the level-2 id set — and when level 1 is
empty it returns the all-empty map `{1: [], 2: [], 3: []}` immediately. -/
theorem downline_levels_and_short_circuit (db : List User) (uid : Nat) :
    lookupLevel (get_downline_users_flat db uid 3) 1 = specLevel1 db uid
    ∧ lookupLevel (get_downline_users_flat db uid 3) 2 = specLevel2 db uid
    ∧ lookupLevel (get_downline_users_flat db uid 3) 3 = specLevel3 db uid
    ∧ (specLevel1 db uid = [] →
        get_downline_users_flat db uid 3 = [(1, []), (2, []), (3, [])]) := by
  rw [get_downline_3_eq]
  by_cases h1 : specLevel1 db uid = []
  · have h2 : specLevel2 db uid = [] := by
      unfold specLevel2
      rw [h1]
      exact filter_inIds_nil db
    have h3 : specLevel3 db uid = [] := by
      unfold specLevel3
      rw [h2]
      exact filter_inIds_nil db
    rw [if_pos h1]
    exact ⟨by rw [h1]; rfl, by rw [h2]; rfl, by rw [h3]; rfl, fun _ => rfl⟩
  · rw [if_neg h1]
    by_cases h2 : specLevel2 db uid = []
    · have h3 : specLevel3 db uid = [] := by
        unfold specLevel3
        rw [h2]
        exact filter_inIds_nil db
      rw [if_pos h2]
      exact ⟨rfl, by rw [h2]; rfl, by rw [h3]; rfl, fun hc => absurd hc h1⟩
    · rw [if_neg h2]
      exact ⟨rfl, rfl, rfl, fun hc => absurd hc h1⟩

/-- Witness for C9: user 99 has no level-1 referrals in `lineageDb`, so
the traversal returns the all-empty level map. -/
theorem downline_levels_and_short_circuit_witness :
    specLevel1 lineageDb 99 = []
    ∧ get_downline_users_flat lineageDb 99 3
        = [(1, []), (2, []), (3, [])] :=
  ⟨rfl, (downline_levels_and_short_circuit lineageDb 99).2.2.2 rfl⟩

end Tekwealth
